import Mathlib

/-!
Verification development for the recipe-api backend: a CRUD service for
per-user tags, ingredients and recipes.  The serializer layer
(`recipe/apps/recipe/serializers.py`) and the router configuration
(`recipe/apps/recipe/urls.py`) are embedded directly from the source;
the viewset layer (`views.py`) and the data model (`models.py`) are not
present in the source tree, so they are modelled from the specification
and from the test suite of the repository.
-/

deriving instance DecidableEq for Except

namespace RecipeApi

/-- Modelled from the spec: `Tag` in `models.py` (file missing from the
source tree): id, name, owning user. -/
structure Tag where
  id : Nat
  user : Nat
  name : String
deriving Repr, DecidableEq

/-- Modelled from the spec: `Ingredient` in `models.py` (file missing from
the source tree): id, name, owning user. -/
structure Ingredient where
  id : Nat
  user : Nat
  name : String
deriving Repr, DecidableEq

/-- Modelled from the spec: `Recipe` in `models.py` (file missing from the
source tree): id, title, time_minutes, price, link, owning user, and
many-to-many relations to tags and ingredients held as id lists (the
join tables). The image field is out of scope of the embedded claims. -/
structure Recipe where
  id : Nat
  user : Nat
  title : String
  time_minutes : Int
  price : Rat
  link : String
  tags : List Nat
  ingredients : List Nat
deriving Repr, DecidableEq

/-- Modelled from the spec: the persistence store holding the three
entity tables. -/
structure DB where
  tags : List Tag
  ingredients : List Ingredient
  recipes : List Recipe
deriving Repr, DecidableEq

/-- Well-formedness of the store: primary keys are unique per table
(enforced by the persistence layer in the real system). -/
def DB.wf (db : DB) : Prop :=
  (db.tags.map Tag.id).Nodup ∧
  (db.ingredients.map Ingredient.id).Nodup ∧
  (db.recipes.map Recipe.id).Nodup

instance (db : DB) : Decidable db.wf := by
  unfold DB.wf; infer_instance

/-- A Python value as it arrives in a deserialized JSON payload, as far
as the serializer type checks inspect it. -/
inductive PyValue where
  | int (n : Int)
  | str (s : String)
  | float (q : Rat)
  | pylist (elems : List Int)
deriving Repr, DecidableEq

/-- `type(data).__name__` for the embedded Python values. -/
def PyValue.typeName : PyValue → String
  | .int _ => "int"
  | .str _ => "str"
  | .float _ => "float"
  | .pylist _ => "list"

/-- Python `str.isnumeric` restricted to the ASCII payloads the API
receives: true iff the string is nonempty and all characters are digits. -/
def pyIsNumeric (s : String) : Bool :=
  !s.toList.isEmpty && s.toList.all Char.isDigit

/-- The interpolation of the value into the invalid-pk error message of
`to_internal_value`. -/
def PyValue.pkRepr : PyValue → String
  | .int n => toString n
  | .str s => s
  | .float q => toString q
  | .pylist _ => "list"

/-- Python int() on a digit string, over the character list. -/
def charsToNat (cs : List Char) : Nat :=
  cs.foldl (fun n c => n * 10 + (c.toNat - 48)) 0

/-- The primary-key value a well-typed payload item denotes: an int is
used as-is, a numeric string is coerced to the integer it spells. -/
def PyValue.pk : PyValue → Int
  | .int n => n
  | .str s => (charsToNat s.toList : Int)
  | _ => 0

/-- Whether the payload item passes the serializer's type check
(`isinstance(data, int) or isinstance(data, str) and data.isnumeric()`). -/
def PyValue.pkTypeOk : PyValue → Bool
  | .int _ => true
  | .str s => pyIsNumeric s
  | _ => false

namespace TagField

/-- Embedding of `TagField.to_internal_value` in `serializers.py`: reject
values that are neither int nor numeric string with an incorrect-type
message; otherwise look up the tag with the given id owned by the
requesting user, failing with an invalid-pk message when it does not
exist. -/
def to_internal_value (db : DB) (user : Nat) (data : PyValue) :
    Except String Tag :=
  if !data.pkTypeOk then
    .error ("Incorrect type. Expected pk value, received "
      ++ data.typeName ++ ".")
  else
    match db.tags.find? (fun t => (t.id : Int) == data.pk && t.user == user)
    with
    | some t => .ok t
    | none =>
        .error ("Invalid pk \"" ++ data.pkRepr
          ++ "\" - object does not exist.")

end TagField

namespace IngredientField

/-- Embedding of `IngredientField.to_internal_value` in `serializers.py`:
same shape as the tag field, over the ingredient table. -/
def to_internal_value (db : DB) (user : Nat) (data : PyValue) :
    Except String Ingredient :=
  if !data.pkTypeOk then
    .error ("Incorrect type. Expected pk value, received "
      ++ data.typeName ++ ".")
  else
    match db.ingredients.find?
      (fun i => (i.id : Int) == data.pk && i.user == user)
    with
    | some i => .ok i
    | none =>
        .error ("Invalid pk \"" ++ data.pkRepr
          ++ "\" - object does not exist.")

end IngredientField

namespace TagSerializer

/-- Embedding of `TagSerializer.validate_name` in `serializers.py`:
unless the serializer is bound to an instance whose name equals the
value, reject the value when a tag with the same name owned by the
requesting user already exists. -/
def validate_name (db : DB) (user : Nat) (inst : Option Tag)
    (value : String) : Except String String :=
  if !(match inst with
       | some i => value == i.name
       | none => false) then
    if db.tags.any (fun t => t.name == value && t.user == user) then
      .error "There is already a tag with this name registered."
    else
      .ok value
  else
    .ok value

end TagSerializer

namespace IngredientSerializer

/-- Embedding of `IngredientSerializer.validate_name` in
`serializers.py`: same rule as for tags, over the ingredient table. -/
def validate_name (db : DB) (user : Nat) (inst : Option Ingredient)
    (value : String) : Except String String :=
  if !(match inst with
       | some i => value == i.name
       | none => false) then
    if db.ingredients.any (fun i => i.name == value && i.user == user) then
      .error "There is already a ingredient with this name registered."
    else
      .ok value
  else
    .ok value

end IngredientSerializer

namespace RecipeSerializer

/-- Embedding of `RecipeSerializer.validate_time_minutes` in
`serializers.py`: values less than or equal to zero are rejected. -/
def validate_time_minutes (value : Int) : Except String Int :=
  if value ≤ 0 then
    .error "The time in minutes cannot be less than one"
  else
    .ok value

/-- Embedding of `RecipeSerializer.validate_price` in `serializers.py`:
negative values are rejected. -/
def validate_price (value : Rat) : Except String Rat :=
  if value < 0 then
    .error "Price cannot be negative"
  else
    .ok value

/-- Embedding of `RecipeSerializer.validate_title` in `serializers.py`:
unless the serializer is bound to an instance whose title equals the
value, reject the value when a recipe with the same title owned by the
requesting user already exists. -/
def validate_title (db : DB) (user : Nat) (inst : Option Recipe)
    (value : String) : Except String String :=
  if !(match inst with
       | some i => value == i.title
       | none => false) then
    if db.recipes.any (fun r => r.title == value && r.user == user) then
      .error "There is already a recipe with this title registered."
    else
      .ok value
  else
    .ok value

end RecipeSerializer

/-- Embedding of the list comprehension the framework runs over a
many-related field: each item is converted in order and the first
failure aborts the whole field with that error. -/
def mapMExcept {α β : Type} (f : α → Except String β) :
    List α → Except String (List β)
  | [] => .ok []
  | x :: xs =>
    match f x with
    | .error m => .error m
    | .ok y =>
      match mapMExcept f xs with
      | .error m => .error m
      | .ok ys => .ok (y :: ys)

/-- Lexicographic order on character lists, standing for the collation
the store uses when ordering by name. -/
def charListLe : List Char → List Char → Bool
  | [], _ => true
  | _ :: _, [] => false
  | a :: as, b :: bs =>
    if a < b then true
    else if b < a then false
    else charListLe as bs

/-- Name order on strings, via the character lists. -/
def strLe (a b : String) : Bool :=
  charListLe a.toList b.toList

/-- Descending-name order on tags (`order_by('-name')`). -/
def tagNameDesc (a b : Tag) : Prop :=
  strLe b.name a.name = true

/-- Descending-name order on ingredients (`order_by('-name')`). -/
def ingredientNameDesc (a b : Ingredient) : Prop :=
  strLe b.name a.name = true

instance : DecidableRel tagNameDesc := fun a b =>
  inferInstanceAs (Decidable (strLe b.name a.name = true))

instance : DecidableRel ingredientNameDesc := fun a b =>
  inferInstanceAs (Decidable (strLe b.name a.name = true))

/-- Modelled from the spec: the comma-separated id-list parser of the
recipe viewset (`_params_to_ints` in the missing `views.py`): split the
query string on commas and read each chunk as an integer. -/
def paramsToInts (qs : String) : List Nat :=
  (splitComma qs.toList).map charsToNat
where
  splitComma : List Char → List (List Char)
    | [] => [[]]
    | c :: rest =>
      if c = ',' then [] :: splitComma rest
      else
        match splitComma rest with
        | [] => [[c]]
        | g :: gs => (c :: g) :: gs

/-- Modelled from the spec: `TagViewSet.get_queryset` (`views.py` is
missing from the source tree).  The tag list is restricted to the
records of the requesting user, narrowed to recipe-assigned records
when the assigned_only filter is truthy (inner join against the
recipe-relation table, de-duplicated), and ordered by name
descending. -/
def tagQueryset (db : DB) (user : Nat) (assignedOnly : Bool) : List Tag :=
  let own := db.tags.filter (fun t => t.user == user)
  let narrowed :=
    if assignedOnly then
      own.filter (fun t => db.recipes.any (fun r => r.tags.contains t.id))
    else own
  narrowed.insertionSort tagNameDesc

/-- Modelled from the spec: `IngredientViewSet.get_queryset` (`views.py`
is missing from the source tree); same shape as the tag queryset. -/
def ingredientQueryset (db : DB) (user : Nat) (assignedOnly : Bool) :
    List Ingredient :=
  let own := db.ingredients.filter (fun i => i.user == user)
  let narrowed :=
    if assignedOnly then
      own.filter
        (fun i => db.recipes.any (fun r => r.ingredients.contains i.id))
    else own
  narrowed.insertionSort ingredientNameDesc

/-- Modelled from the spec: `RecipeViewSet.get_queryset` (`views.py` is
missing from the source tree).  The recipe list is restricted to the
records of the requesting user and further narrowed, when the tags or
ingredients query parameters are present, to recipes associated with at
least one of the listed ids (logical OR across the listed ids); order
is left as stored. -/
def recipeQueryset (db : DB) (user : Nat)
    (tagsParam ingredientsParam : Option String) : List Recipe :=
  let own := db.recipes.filter (fun r => r.user == user)
  let byTags :=
    match tagsParam with
    | some qs =>
        own.filter
          (fun r => (paramsToInts qs).any (fun i => r.tags.contains i))
    | none => own
  match ingredientsParam with
  | some qs =>
      byTags.filter
        (fun r => (paramsToInts qs).any (fun i => r.ingredients.contains i))
  | none => byTags

/-- HTTP status codes the API uses (403 is included only to state that
it is never produced). -/
inductive HStatus where
  | s200 | s201 | s204 | s400 | s401 | s403 | s404
deriving Repr, DecidableEq

/-- Modelled from the spec: the framework required-field mechanism for
the name-like char fields — a blank value is rejected before the
field validator runs; otherwise the embedded validator decides. -/
def runNameField (validator : String → Except String String)
    (value : String) : Except String String :=
  if value = "" then .error "This field may not be blank."
  else validator value

/-- Modelled from the spec: primary keys are assigned by the store as
successive integers; a fresh key is larger than every existing one. -/
def freshId (ids : List Nat) : Nat :=
  ids.foldr max 0 + 1

/-- Modelled from the spec: tag detail lookup (retrieve); the object is
searched inside the user-scoped queryset, so a foreign or absent id
answers 404. -/
def tagRetrieve (db : DB) (user : Nat) (id : Nat) : HStatus :=
  if db.tags.any (fun t => t.user == user && t.id == id) then .s200
  else .s404

/-- Modelled from the spec: tag creation — validate the name, then
persist a new tag owned by the requesting user; 201 on success, 400 on
validation failure with the store untouched. -/
def tagCreate (db : DB) (user : Nat) (name : String) : HStatus × DB :=
  match runNameField (TagSerializer.validate_name db user none) name with
  | .error _ => (.s400, db)
  | .ok v =>
      (.s201,
        { db with tags := db.tags ++ [⟨freshId (db.tags.map Tag.id), user, v⟩] })

/-- Modelled from the spec: tag update — the instance is looked up in
the user-scoped queryset (404 when foreign or absent), then the name is
validated against the bound instance; 400 leaves the store untouched. -/
def tagUpdate (db : DB) (user : Nat) (id : Nat) (name : String) :
    HStatus × DB :=
  match db.tags.find? (fun t => t.user == user && t.id == id) with
  | none => (.s404, db)
  | some inst =>
    match runNameField (TagSerializer.validate_name db user (some inst))
        name with
    | .error _ => (.s400, db)
    | .ok v =>
        (.s200,
          { db with tags :=
              db.tags.map (fun t =>
                if t.user == user && t.id == id then
                  { t with name := v }
                else t) })

/-- Modelled from the spec: tag deletion — 204 and removal when the id
is in the user-scoped queryset, 404 otherwise with the store
untouched. -/
def tagDestroy (db : DB) (user : Nat) (id : Nat) : HStatus × DB :=
  if db.tags.any (fun t => t.user == user && t.id == id) then
    (.s204,
      { db with tags :=
          db.tags.filter (fun t => !(t.user == user && t.id == id)) })
  else (.s404, db)

/-- Modelled from the spec: ingredient detail lookup, user-scoped. -/
def ingredientRetrieve (db : DB) (user : Nat) (id : Nat) : HStatus :=
  if db.ingredients.any (fun i => i.user == user && i.id == id) then .s200
  else .s404

/-- Modelled from the spec: ingredient creation, as for tags. -/
def ingredientCreate (db : DB) (user : Nat) (name : String) :
    HStatus × DB :=
  match runNameField (IngredientSerializer.validate_name db user none)
      name with
  | .error _ => (.s400, db)
  | .ok v =>
      (.s201,
        { db with ingredients :=
            db.ingredients
              ++ [⟨freshId (db.ingredients.map Ingredient.id), user, v⟩] })

/-- Modelled from the spec: ingredient update, as for tags. -/
def ingredientUpdate (db : DB) (user : Nat) (id : Nat) (name : String) :
    HStatus × DB :=
  match db.ingredients.find? (fun i => i.user == user && i.id == id) with
  | none => (.s404, db)
  | some inst =>
    match runNameField
        (IngredientSerializer.validate_name db user (some inst)) name with
    | .error _ => (.s400, db)
    | .ok v =>
        (.s200,
          { db with ingredients :=
              db.ingredients.map (fun i =>
                if i.user == user && i.id == id then
                  { i with name := v }
                else i) })

/-- Modelled from the spec: ingredient deletion, as for tags. -/
def ingredientDestroy (db : DB) (user : Nat) (id : Nat) : HStatus × DB :=
  if db.ingredients.any (fun i => i.user == user && i.id == id) then
    (.s204,
      { db with ingredients :=
          db.ingredients.filter (fun i => !(i.user == user && i.id == id)) })
  else (.s404, db)

/-- A deserialized recipe write payload. -/
structure RecipePayload where
  title : String
  time_minutes : Int
  price : Rat
  link : String
  tags : List PyValue
  ingredients : List PyValue
deriving Repr, DecidableEq

/-- The validated data a successful recipe serializer run produces. -/
structure RecipeValidated where
  title : String
  time_minutes : Int
  price : Rat
  link : String
  tags : List Tag
  ingredients : List Ingredient
deriving Repr, DecidableEq

/-- The error list a failed field contributes. -/
def collectErr {α : Type} : Except String α → List String
  | .error m => [m]
  | .ok _ => []

/-- Modelled from the spec: how the framework combines the independent
per-field runs of the recipe serializer — failures of the five
writable fields are accumulated, not short-circuited; the run succeeds
only when every field does. -/
def combineFields (link : String) (tE : Except String String)
    (tmE : Except String Int) (prE : Except String Rat)
    (tagsE : Except String (List Tag))
    (ingsE : Except String (List Ingredient)) :
    Except (List String) RecipeValidated :=
  match tE, tmE, prE, tagsE, ingsE with
  | .ok title, .ok tm, .ok pr, .ok tg, .ok ig =>
      .ok ⟨title, tm, pr, link, tg, ig⟩
  | _, _, _, _, _ =>
      .error (collectErr tE ++ collectErr tmE ++ collectErr prE
        ++ collectErr tagsE ++ collectErr ingsE)

/-- Modelled from the spec: the full recipe serializer validation run
(the `is_valid` phase): title through the blank check and
`validate_title`, time and price through their validators, tags and
ingredients through the related-field conversion, errors accumulated
across fields. -/
def recipeRunValidation (db : DB) (user : Nat) (inst : Option Recipe)
    (p : RecipePayload) : Except (List String) RecipeValidated :=
  combineFields p.link
    (runNameField (RecipeSerializer.validate_title db user inst) p.title)
    (RecipeSerializer.validate_time_minutes p.time_minutes)
    (RecipeSerializer.validate_price p.price)
    (mapMExcept (TagField.to_internal_value db user) p.tags)
    (mapMExcept (IngredientField.to_internal_value db user) p.ingredients)

/-- Modelled from the spec: recipe detail lookup, user-scoped. -/
def recipeRetrieve (db : DB) (user : Nat) (id : Nat) : HStatus :=
  if db.recipes.any (fun r => r.user == user && r.id == id) then .s200
  else .s404

/-- Modelled from the spec: recipe creation — the payload is validated
as a whole and persisted only on success (201); any validation failure
answers 400 and leaves the store untouched. -/
def recipeCreate (db : DB) (user : Nat) (p : RecipePayload) :
    HStatus × DB :=
  match recipeRunValidation db user none p with
  | .error _ => (.s400, db)
  | .ok v =>
      (.s201,
        { db with recipes :=
            db.recipes
              ++ [⟨freshId (db.recipes.map Recipe.id), user, v.title,
                    v.time_minutes, v.price, v.link, v.tags.map Tag.id,
                    v.ingredients.map Ingredient.id⟩] })

/-- Modelled from the spec: recipe update — instance from the
user-scoped queryset (404 when foreign or absent), full validation
bound to the instance, 400 leaving the store untouched on failure. -/
def recipeUpdate (db : DB) (user : Nat) (id : Nat) (p : RecipePayload) :
    HStatus × DB :=
  match db.recipes.find? (fun r => r.user == user && r.id == id) with
  | none => (.s404, db)
  | some inst =>
    match recipeRunValidation db user (some inst) p with
    | .error _ => (.s400, db)
    | .ok v =>
        (.s200,
          { db with recipes :=
              db.recipes.map (fun r =>
                if r.user == user && r.id == id then
                  ⟨r.id, r.user, v.title, v.time_minutes, v.price, v.link,
                    v.tags.map Tag.id, v.ingredients.map Ingredient.id⟩
                else r) })

/-- Modelled from the spec: recipe deletion, user-scoped. -/
def recipeDestroy (db : DB) (user : Nat) (id : Nat) : HStatus × DB :=
  if db.recipes.any (fun r => r.user == user && r.id == id) then
    (.s204,
      { db with recipes :=
          db.recipes.filter (fun r => !(r.user == user && r.id == id)) })
  else (.s404, db)

/-- A request to the API: method and resource path with its payload. -/
inductive Req where
  | tagListReq (assignedOnly : Bool)
  | tagDetailReq (id : Nat)
  | tagCreateReq (name : String)
  | tagUpdateReq (id : Nat) (name : String)
  | tagDestroyReq (id : Nat)
  | ingredientListReq (assignedOnly : Bool)
  | ingredientDetailReq (id : Nat)
  | ingredientCreateReq (name : String)
  | ingredientUpdateReq (id : Nat) (name : String)
  | ingredientDestroyReq (id : Nat)
  | recipeListReq (tagsParam ingredientsParam : Option String)
  | recipeDetailReq (id : Nat)
  | recipeCreateReq (p : RecipePayload)
  | recipeUpdateReq (id : Nat) (p : RecipePayload)
  | recipeDestroyReq (id : Nat)
deriving Repr, DecidableEq

/-- Modelled from the spec: the request cycle — every viewset carries
the authentication requirement, so a request without an authenticated
user is answered 401 before any listing, validation, uniqueness or
existence check runs and the store is left untouched; an authenticated
request is dispatched to the resource operation. -/
def handle (db : DB) (authedUser : Option Nat) (req : Req) :
    HStatus × DB :=
  match authedUser with
  | none => (.s401, db)
  | some u =>
    match req with
    | .tagListReq _ => (.s200, db)
    | .tagDetailReq id => (tagRetrieve db u id, db)
    | .tagCreateReq name => tagCreate db u name
    | .tagUpdateReq id name => tagUpdate db u id name
    | .tagDestroyReq id => tagDestroy db u id
    | .ingredientListReq _ => (.s200, db)
    | .ingredientDetailReq id => (ingredientRetrieve db u id, db)
    | .ingredientCreateReq name => ingredientCreate db u name
    | .ingredientUpdateReq id name => ingredientUpdate db u id name
    | .ingredientDestroyReq id => ingredientDestroy db u id
    | .recipeListReq _ _ => (.s200, db)
    | .recipeDetailReq id => (recipeRetrieve db u id, db)
    | .recipeCreateReq p => recipeCreate db u p
    | .recipeUpdateReq id p => recipeUpdate db u id p
    | .recipeDestroyReq id => recipeDestroy db u id

/-- Embedding of `recipe/apps/recipe/urls.py`: the DefaultRouter
registrations.  Only the tags resource is registered
(`router.register('tags', views.TagViewSet)`); the router derives the
basename `tag` from the queryset model and generates the `tag-list` and
`tag-detail` route names from it. -/
def routerBasenames : List String := ["tag"]

/-- The route names the registered router configuration resolves: a
list and a detail route per registered basename. -/
def routeNames : List String :=
  routerBasenames.flatMap (fun b => [b ++ "-list", b ++ "-detail"])

/-- Whether a route name resolves against the router configuration. -/
def routeResolves (name : String) : Bool :=
  routeNames.contains name

lemma charListLe_total : ∀ as bs : List Char,
    charListLe as bs = true ∨ charListLe bs as = true := by
  intro as
  induction as with
  | nil => intro bs; left; rfl
  | cons a as ih =>
    intro bs
    cases bs with
    | nil => right; rfl
    | cons b bs =>
      rcases lt_trichotomy a b with hlt | heq | hgt
      · left; simp [charListLe, hlt]
      · subst heq
        rcases ih bs with h | h
        · left; simp [charListLe, lt_irrefl, h]
        · right; simp [charListLe, lt_irrefl, h]
      · right; simp [charListLe, hgt]

lemma charListLe_cons (a b : Char) (as bs : List Char) :
    charListLe (a :: as) (b :: bs) =
      if a < b then true else if b < a then false else charListLe as bs :=
  rfl

lemma charListLe_trans : ∀ as bs cs : List Char,
    charListLe as bs = true → charListLe bs cs = true →
    charListLe as cs = true := by
  intro as
  induction as with
  | nil => intro bs cs _ _; rfl
  | cons a as ih =>
    intro bs cs hab hbc
    cases bs with
    | nil => simp [charListLe] at hab
    | cons b bs =>
      cases cs with
      | nil => simp [charListLe] at hbc
      | cons c cs =>
        rcases lt_trichotomy a b with hab1 | hab1 | hab1
        · rcases lt_trichotomy b c with hbc1 | hbc1 | hbc1
          · rw [charListLe_cons, if_pos (lt_trans hab1 hbc1)]
          · subst hbc1; rw [charListLe_cons, if_pos hab1]
          · rw [charListLe_cons, if_neg (asymm hbc1), if_pos hbc1] at hbc
            cases hbc
        · subst hab1
          rcases lt_trichotomy a c with hac | hac | hac
          · rw [charListLe_cons, if_pos hac]
          · subst hac
            rw [charListLe_cons, if_neg (lt_irrefl a),
              if_neg (lt_irrefl a)] at hab hbc ⊢
            exact ih _ _ hab hbc
          · rw [charListLe_cons, if_neg (asymm hac), if_pos hac] at hbc
            cases hbc
        · rw [charListLe_cons, if_neg (asymm hab1), if_pos hab1] at hab
          cases hab

instance : IsTotal Tag tagNameDesc :=
  ⟨fun a b => charListLe_total b.name.toList a.name.toList⟩

instance : IsTrans Tag tagNameDesc :=
  ⟨fun _ _ _ h1 h2 => charListLe_trans _ _ _ h2 h1⟩

instance : IsTotal Ingredient ingredientNameDesc :=
  ⟨fun a b => charListLe_total b.name.toList a.name.toList⟩

instance : IsTrans Ingredient ingredientNameDesc :=
  ⟨fun _ _ _ h1 h2 => charListLe_trans _ _ _ h2 h1⟩

lemma mapMExcept_error_of_mem {α β : Type} (f : α → Except String β)
    (l : List α) (x : α) (m : String) (hx : x ∈ l)
    (hf : f x = .error m) :
    ∃ e, mapMExcept f l = .error e ∧ ∃ y ∈ l, f y = .error e := by
  induction l with
  | nil => cases hx
  | cons hd tl ih =>
    cases hfh : f hd with
    | error e =>
      refine ⟨e, ?_, hd, List.mem_cons_self _ _, hfh⟩
      simp [mapMExcept, hfh]
    | ok y =>
      rcases List.mem_cons.mp hx with h | h
      · rw [h, hfh] at hf; cases hf
      · rcases ih h with ⟨e, he, y', hy', hfy'⟩
        refine ⟨e, ?_, y', List.mem_cons_of_mem _ hy', hfy'⟩
        simp [mapMExcept, hfh, he]

lemma mapMExcept_ok_forall {α β : Type} (f : α → Except String β)
    (l : List α) (ys : List β) (h : mapMExcept f l = .ok ys) :
    ∀ x ∈ l, ∃ y, f x = .ok y := by
  induction l generalizing ys with
  | nil => intro x hx; cases hx
  | cons hd tl ih =>
    intro x hx
    cases hfh : f hd with
    | error e => simp [mapMExcept, hfh] at h
    | ok y =>
      cases htl : mapMExcept f tl with
      | error e => simp [mapMExcept, hfh, htl] at h
      | ok ys' =>
        rcases List.mem_cons.mp hx with hx | hx
        · exact ⟨y, hx ▸ hfh⟩
        · exact ih ys' htl x hx

lemma combineFields_error_of_title (link : String)
    (tE : Except String String) (tmE : Except String Int)
    (prE : Except String Rat) (tagsE : Except String (List Tag))
    (ingsE : Except String (List Ingredient)) {m : String}
    (h : tE = .error m) :
    ∃ errs, combineFields link tE tmE prE tagsE ingsE = .error errs ∧
      m ∈ errs := by
  subst h
  cases tmE <;> cases prE <;> cases tagsE <;> cases ingsE <;>
    simp [combineFields, collectErr]

lemma combineFields_error_of_time (link : String)
    (tE : Except String String) (tmE : Except String Int)
    (prE : Except String Rat) (tagsE : Except String (List Tag))
    (ingsE : Except String (List Ingredient)) {m : String}
    (h : tmE = .error m) :
    ∃ errs, combineFields link tE tmE prE tagsE ingsE = .error errs ∧
      m ∈ errs := by
  subst h
  cases tE <;> cases prE <;> cases tagsE <;> cases ingsE <;>
    simp [combineFields, collectErr]

lemma combineFields_error_of_price (link : String)
    (tE : Except String String) (tmE : Except String Int)
    (prE : Except String Rat) (tagsE : Except String (List Tag))
    (ingsE : Except String (List Ingredient)) {m : String}
    (h : prE = .error m) :
    ∃ errs, combineFields link tE tmE prE tagsE ingsE = .error errs ∧
      m ∈ errs := by
  subst h
  cases tE <;> cases tmE <;> cases tagsE <;> cases ingsE <;>
    simp [combineFields, collectErr]

lemma combineFields_error_of_tags (link : String)
    (tE : Except String String) (tmE : Except String Int)
    (prE : Except String Rat) (tagsE : Except String (List Tag))
    (ingsE : Except String (List Ingredient)) {m : String}
    (h : tagsE = .error m) :
    ∃ errs, combineFields link tE tmE prE tagsE ingsE = .error errs ∧
      m ∈ errs := by
  subst h
  cases tE <;> cases tmE <;> cases prE <;> cases ingsE <;>
    simp [combineFields, collectErr]

lemma combineFields_error_of_ingredients (link : String)
    (tE : Except String String) (tmE : Except String Int)
    (prE : Except String Rat) (tagsE : Except String (List Tag))
    (ingsE : Except String (List Ingredient)) {m : String}
    (h : ingsE = .error m) :
    ∃ errs, combineFields link tE tmE prE tagsE ingsE = .error errs ∧
      m ∈ errs := by
  subst h
  cases tE <;> cases tmE <;> cases prE <;> cases tagsE <;>
    simp [combineFields, collectErr]

lemma tag_eq_of_id_eq {db : DB} (hwf : (db.tags.map Tag.id).Nodup)
    {t t' : Tag} (ht : t ∈ db.tags) (ht' : t' ∈ db.tags)
    (h : t.id = t'.id) : t = t' :=
  List.inj_on_of_nodup_map hwf ht ht' h

lemma ingredient_eq_of_id_eq {db : DB}
    (hwf : (db.ingredients.map Ingredient.id).Nodup)
    {i i' : Ingredient} (hi : i ∈ db.ingredients)
    (hi' : i' ∈ db.ingredients) (h : i.id = i'.id) : i = i' :=
  List.inj_on_of_nodup_map hwf hi hi' h

lemma recipe_eq_of_id_eq {db : DB}
    (hwf : (db.recipes.map Recipe.id).Nodup)
    {r r' : Recipe} (hr : r ∈ db.recipes) (hr' : r' ∈ db.recipes)
    (h : r.id = r'.id) : r = r' :=
  List.inj_on_of_nodup_map hwf hr hr' h

lemma mem_tagQueryset_false {db : DB} {u : Nat} {t : Tag} :
    t ∈ tagQueryset db u false ↔ t ∈ db.tags ∧ t.user = u := by
  rw [tagQueryset]
  rw [(List.perm_insertionSort tagNameDesc _).mem_iff]
  simp [List.mem_filter]

lemma mem_tagQueryset_true {db : DB} {u : Nat} {t : Tag} :
    t ∈ tagQueryset db u true ↔
      t ∈ db.tags ∧ t.user = u ∧ ∃ r ∈ db.recipes, t.id ∈ r.tags := by
  rw [tagQueryset]
  rw [(List.perm_insertionSort tagNameDesc _).mem_iff]
  simp [List.mem_filter, List.any_eq_true, and_assoc]
  tauto

lemma mem_ingredientQueryset_false {db : DB} {u : Nat} {i : Ingredient} :
    i ∈ ingredientQueryset db u false ↔
      i ∈ db.ingredients ∧ i.user = u := by
  rw [ingredientQueryset]
  rw [(List.perm_insertionSort ingredientNameDesc _).mem_iff]
  simp [List.mem_filter]

lemma mem_ingredientQueryset_true {db : DB} {u : Nat} {i : Ingredient} :
    i ∈ ingredientQueryset db u true ↔
      i ∈ db.ingredients ∧ i.user = u ∧
        ∃ r ∈ db.recipes, i.id ∈ r.ingredients := by
  rw [ingredientQueryset]
  rw [(List.perm_insertionSort ingredientNameDesc _).mem_iff]
  simp [List.mem_filter, List.any_eq_true, and_assoc]
  tauto

lemma mem_recipeQueryset_none {db : DB} {u : Nat} {r : Recipe} :
    r ∈ recipeQueryset db u none none ↔ r ∈ db.recipes ∧ r.user = u := by
  rw [recipeQueryset]
  simp [List.mem_filter]

lemma mem_recipeQueryset_tags {db : DB} {u : Nat} {r : Recipe}
    {qs : String} :
    r ∈ recipeQueryset db u (some qs) none ↔
      r ∈ db.recipes ∧ r.user = u ∧
        ∃ i ∈ paramsToInts qs, i ∈ r.tags := by
  rw [recipeQueryset]
  simp [List.mem_filter, List.any_eq_true, and_assoc]
  tauto

lemma mem_recipeQueryset_ingredients {db : DB} {u : Nat} {r : Recipe}
    {qs : String} :
    r ∈ recipeQueryset db u none (some qs) ↔
      r ∈ db.recipes ∧ r.user = u ∧
        ∃ i ∈ paramsToInts qs, i ∈ r.ingredients := by
  rw [recipeQueryset]
  simp [List.mem_filter, List.any_eq_true, and_assoc]
  tauto

lemma mem_recipeQueryset_scope {db : DB} {u : Nat} {r : Recipe}
    {tp ip : Option String} (h : r ∈ recipeQueryset db u tp ip) :
    r ∈ db.recipes ∧ r.user = u := by
  cases tp <;> cases ip <;>
    simp [recipeQueryset, List.mem_filter] at h <;> tauto

/-- A small concrete store used to instantiate the theorems: two users
(1 and 2), each owning a tag and an ingredient, and one recipe owned by
user 1 referencing tag 1 and ingredient 1 in two recipes. -/
def sampleDB : DB :=
  ⟨[⟨1, 1, "Vegan"⟩, ⟨2, 2, "Fruity"⟩, ⟨3, 1, "Dessert"⟩],
   [⟨1, 1, "Salt"⟩, ⟨2, 2, "Pepper"⟩],
   [⟨1, 1, "Pie", 10, 5, "", [1], [1]⟩,
    ⟨2, 1, "Stew", 5, 10, "", [1], [1]⟩]⟩

/-- C1: the router configuration registers only the tags viewset, so
only the tag-list and tag-detail route names resolve; the
ingredient-list, ingredient-detail, recipe-list and recipe-detail
routes required by the claim (and reversed by the test suite) do not
resolve. -/
theorem c1_router_routes :
    routeResolves "tag-list" = true ∧
    routeResolves "tag-detail" = true ∧
    routeResolves "ingredient-list" = false ∧
    routeResolves "ingredient-detail" = false ∧
    routeResolves "recipe-list" = false ∧
    routeResolves "recipe-detail" = false := by
  decide

/-- C3: validate_time_minutes rejects every value below one and accepts
every value of at least one; validate_price rejects exactly the
negative values and accepts zero and every positive value; a rejected
value makes the create request answer 400. -/
theorem c3_time_price_bounds (tm : Int) (pr : Rat) (db : DB) (u : Nat)
    (p : RecipePayload) :
    (tm ≤ 0 →
      RecipeSerializer.validate_time_minutes tm =
        .error "The time in minutes cannot be less than one") ∧
    (1 ≤ tm → RecipeSerializer.validate_time_minutes tm = .ok tm) ∧
    (pr < 0 →
      RecipeSerializer.validate_price pr =
        .error "Price cannot be negative") ∧
    (0 ≤ pr → RecipeSerializer.validate_price pr = .ok pr) ∧
    (p.time_minutes ≤ 0 → (recipeCreate db u p).1 = .s400) ∧
    (p.price < 0 → (recipeCreate db u p).1 = .s400) := by
  refine ⟨?_, ?_, ?_, ?_, ?_, ?_⟩
  · intro h; simp [RecipeSerializer.validate_time_minutes, h]
  · intro h
    simp [RecipeSerializer.validate_time_minutes]
    omega
  · intro h; simp [RecipeSerializer.validate_price, h]
  · intro h
    simp [RecipeSerializer.validate_price]
    exact h
  · intro h
    have htm : RecipeSerializer.validate_time_minutes p.time_minutes =
        .error "The time in minutes cannot be less than one" := by
      simp [RecipeSerializer.validate_time_minutes, h]
    rcases combineFields_error_of_time p.link
      (runNameField (RecipeSerializer.validate_title db u none) p.title)
      (RecipeSerializer.validate_time_minutes p.time_minutes)
      (RecipeSerializer.validate_price p.price)
      (mapMExcept (TagField.to_internal_value db u) p.tags)
      (mapMExcept (IngredientField.to_internal_value db u) p.ingredients)
      htm with ⟨errs, herrs, _⟩
    simp [recipeCreate, recipeRunValidation, herrs]
  · intro h
    have hpr : RecipeSerializer.validate_price p.price =
        .error "Price cannot be negative" := by
      simp [RecipeSerializer.validate_price, h]
    rcases combineFields_error_of_price p.link
      (runNameField (RecipeSerializer.validate_title db u none) p.title)
      (RecipeSerializer.validate_time_minutes p.time_minutes)
      (RecipeSerializer.validate_price p.price)
      (mapMExcept (TagField.to_internal_value db u) p.tags)
      (mapMExcept (IngredientField.to_internal_value db u) p.ingredients)
      hpr with ⟨errs, herrs, _⟩
    simp [recipeCreate, recipeRunValidation, herrs]

/-- Witness for C3 at concrete inputs. -/
theorem c3_witness :
    RecipeSerializer.validate_time_minutes (-5) =
      .error "The time in minutes cannot be less than one" ∧
    RecipeSerializer.validate_time_minutes 1 = .ok 1 ∧
    RecipeSerializer.validate_price (-1) =
      .error "Price cannot be negative" ∧
    RecipeSerializer.validate_price 0 = .ok 0 ∧
    (recipeCreate sampleDB 1 ⟨"New", -5, 5, "", [], []⟩).1 = .s400 ∧
    (recipeCreate sampleDB 1 ⟨"New", 5, -1, "", [], []⟩).1 = .s400 := by
  refine ⟨?_, ?_, ?_, ?_, ?_, ?_⟩
  · exact (c3_time_price_bounds (-5) 0 sampleDB 1
      ⟨"New", -5, 5, "", [], []⟩).1 (by decide)
  · exact (c3_time_price_bounds 1 0 sampleDB 1
      ⟨"New", -5, 5, "", [], []⟩).2.1 (by decide)
  · exact (c3_time_price_bounds 1 (-1) sampleDB 1
      ⟨"New", -5, 5, "", [], []⟩).2.2.1 (by decide)
  · exact (c3_time_price_bounds 1 0 sampleDB 1
      ⟨"New", -5, 5, "", [], []⟩).2.2.2.1 (by decide)
  · exact (c3_time_price_bounds 1 0 sampleDB 1
      ⟨"New", -5, 5, "", [], []⟩).2.2.2.2.1 (by decide)
  · exact (c3_time_price_bounds 1 0 sampleDB 1
      ⟨"New", 5, -1, "", [], []⟩).2.2.2.2.2 (by decide)

/-- C2: per-user uniqueness of tag name, ingredient name and recipe
title: a value equal to the name of the bound instance is exempt from
the check; otherwise a value already used by a record of the same kind
owned by the same user is rejected (and the create request answers
400), while a duplicate owned by a different user is accepted. -/
theorem c2_per_user_uniqueness (db : DB) (u : Nat) (v : String) :
    ((∀ inst : Tag, v = inst.name →
        TagSerializer.validate_name db u (some inst) v = .ok v) ∧
      (∀ inst : Option Tag, (∀ i, inst = some i → v ≠ i.name) →
        ((∃ t ∈ db.tags, t.name = v ∧ t.user = u) →
          TagSerializer.validate_name db u inst v =
            .error "There is already a tag with this name registered.") ∧
        ((∀ t ∈ db.tags, t.name = v → t.user ≠ u) →
          TagSerializer.validate_name db u inst v = .ok v)) ∧
      ((∃ t ∈ db.tags, t.name = v ∧ t.user = u) →
        (tagCreate db u v).1 = .s400)) ∧
    ((∀ inst : Ingredient, v = inst.name →
        IngredientSerializer.validate_name db u (some inst) v = .ok v) ∧
      (∀ inst : Option Ingredient, (∀ i, inst = some i → v ≠ i.name) →
        ((∃ i ∈ db.ingredients, i.name = v ∧ i.user = u) →
          IngredientSerializer.validate_name db u inst v =
            .error
              "There is already a ingredient with this name registered.") ∧
        ((∀ i ∈ db.ingredients, i.name = v → i.user ≠ u) →
          IngredientSerializer.validate_name db u inst v = .ok v)) ∧
      ((∃ i ∈ db.ingredients, i.name = v ∧ i.user = u) →
        (ingredientCreate db u v).1 = .s400)) ∧
    ((∀ inst : Recipe, v = inst.title →
        RecipeSerializer.validate_title db u (some inst) v = .ok v) ∧
      (∀ inst : Option Recipe, (∀ i, inst = some i → v ≠ i.title) →
        ((∃ r ∈ db.recipes, r.title = v ∧ r.user = u) →
          RecipeSerializer.validate_title db u inst v =
            .error
              "There is already a recipe with this title registered.") ∧
        ((∀ r ∈ db.recipes, r.title = v → r.user ≠ u) →
          RecipeSerializer.validate_title db u inst v = .ok v)) ∧
      (∀ p : RecipePayload, p.title = v →
        (∃ r ∈ db.recipes, r.title = v ∧ r.user = u) →
        (recipeCreate db u p).1 = .s400)) := by
  refine ⟨⟨?_, ?_, ?_⟩, ⟨?_, ?_, ?_⟩, ⟨?_, ?_, ?_⟩⟩
  · intro inst h
    simp [TagSerializer.validate_name, h]
  · intro inst hinst
    cases inst with
    | none =>
      constructor
      · rintro ⟨t, ht, hname, huser⟩
        have hany : db.tags.any (fun t => t.name == v && t.user == u)
            = true := by
          rw [List.any_eq_true]
          exact ⟨t, ht, by simp [hname, huser]⟩
        simp [TagSerializer.validate_name, hany]
      · intro hnone
        have hany : db.tags.any (fun t => t.name == v && t.user == u)
            = false := by
          rw [Bool.eq_false_iff]
          intro hcontra
          rcases List.any_eq_true.mp hcontra with ⟨t, ht, hp⟩
          simp at hp
          exact hnone t ht hp.1 hp.2
        simp [TagSerializer.validate_name, hany]
    | some i =>
      have hne : (v == i.name) = false := by simpa using hinst i rfl
      constructor
      · rintro ⟨t, ht, hname, huser⟩
        have hany : db.tags.any (fun t => t.name == v && t.user == u)
            = true := by
          rw [List.any_eq_true]
          exact ⟨t, ht, by simp [hname, huser]⟩
        simp [TagSerializer.validate_name, hne, hany]
      · intro hnone
        have hany : db.tags.any (fun t => t.name == v && t.user == u)
            = false := by
          rw [Bool.eq_false_iff]
          intro hcontra
          rcases List.any_eq_true.mp hcontra with ⟨t, ht, hp⟩
          simp at hp
          exact hnone t ht hp.1 hp.2
        simp [TagSerializer.validate_name, hne, hany]
  · rintro ⟨t, ht, hname, huser⟩
    by_cases hblank : v = ""
    · simp [tagCreate, runNameField, hblank]
    · have hval : TagSerializer.validate_name db u none v =
          .error "There is already a tag with this name registered." := by
        have hany : db.tags.any (fun t => t.name == v && t.user == u)
            = true := by
          rw [List.any_eq_true]
          exact ⟨t, ht, by simp [hname, huser]⟩
        simp [TagSerializer.validate_name, hany]
      simp [tagCreate, runNameField, hblank, hval]
  · intro inst h
    simp [IngredientSerializer.validate_name, h]
  · intro inst hinst
    cases inst with
    | none =>
      constructor
      · rintro ⟨i, hi, hname, huser⟩
        have hany : db.ingredients.any
            (fun i => i.name == v && i.user == u) = true := by
          rw [List.any_eq_true]
          exact ⟨i, hi, by simp [hname, huser]⟩
        simp [IngredientSerializer.validate_name, hany]
      · intro hnone
        have hany : db.ingredients.any
            (fun i => i.name == v && i.user == u) = false := by
          rw [Bool.eq_false_iff]
          intro hcontra
          rcases List.any_eq_true.mp hcontra with ⟨i, hi, hp⟩
          simp at hp
          exact hnone i hi hp.1 hp.2
        simp [IngredientSerializer.validate_name, hany]
    | some i0 =>
      have hne : (v == i0.name) = false := by simpa using hinst i0 rfl
      constructor
      · rintro ⟨i, hi, hname, huser⟩
        have hany : db.ingredients.any
            (fun i => i.name == v && i.user == u) = true := by
          rw [List.any_eq_true]
          exact ⟨i, hi, by simp [hname, huser]⟩
        simp [IngredientSerializer.validate_name, hne, hany]
      · intro hnone
        have hany : db.ingredients.any
            (fun i => i.name == v && i.user == u) = false := by
          rw [Bool.eq_false_iff]
          intro hcontra
          rcases List.any_eq_true.mp hcontra with ⟨i, hi, hp⟩
          simp at hp
          exact hnone i hi hp.1 hp.2
        simp [IngredientSerializer.validate_name, hne, hany]
  · rintro ⟨i, hi, hname, huser⟩
    by_cases hblank : v = ""
    · simp [ingredientCreate, runNameField, hblank]
    · have hval : IngredientSerializer.validate_name db u none v =
          .error
            "There is already a ingredient with this name registered." := by
        have hany : db.ingredients.any
            (fun i => i.name == v && i.user == u) = true := by
          rw [List.any_eq_true]
          exact ⟨i, hi, by simp [hname, huser]⟩
        simp [IngredientSerializer.validate_name, hany]
      simp [ingredientCreate, runNameField, hblank, hval]
  · intro inst h
    simp [RecipeSerializer.validate_title, h]
  · intro inst hinst
    cases inst with
    | none =>
      constructor
      · rintro ⟨r, hr, htitle, huser⟩
        have hany : db.recipes.any (fun r => r.title == v && r.user == u)
            = true := by
          rw [List.any_eq_true]
          exact ⟨r, hr, by simp [htitle, huser]⟩
        simp [RecipeSerializer.validate_title, hany]
      · intro hnone
        have hany : db.recipes.any (fun r => r.title == v && r.user == u)
            = false := by
          rw [Bool.eq_false_iff]
          intro hcontra
          rcases List.any_eq_true.mp hcontra with ⟨r, hr, hp⟩
          simp at hp
          exact hnone r hr hp.1 hp.2
        simp [RecipeSerializer.validate_title, hany]
    | some r0 =>
      have hne : (v == r0.title) = false := by simpa using hinst r0 rfl
      constructor
      · rintro ⟨r, hr, htitle, huser⟩
        have hany : db.recipes.any (fun r => r.title == v && r.user == u)
            = true := by
          rw [List.any_eq_true]
          exact ⟨r, hr, by simp [htitle, huser]⟩
        simp [RecipeSerializer.validate_title, hne, hany]
      · intro hnone
        have hany : db.recipes.any (fun r => r.title == v && r.user == u)
            = false := by
          rw [Bool.eq_false_iff]
          intro hcontra
          rcases List.any_eq_true.mp hcontra with ⟨r, hr, hp⟩
          simp at hp
          exact hnone r hr hp.1 hp.2
        simp [RecipeSerializer.validate_title, hne, hany]
  · intro p htitle hdup
    rcases hdup with ⟨r, hr, hname, huser⟩
    have hany : db.recipes.any (fun r => r.title == v && r.user == u)
        = true := by
      rw [List.any_eq_true]
      exact ⟨r, hr, by simp [hname, huser]⟩
    have hfield : ∃ m, runNameField
        (RecipeSerializer.validate_title db u none) p.title =
          .error m := by
      by_cases hblank : p.title = ""
      · exact ⟨"This field may not be blank.", by simp [runNameField, hblank]⟩
      · refine ⟨"There is already a recipe with this title registered.", ?_⟩
        rw [htitle] at hblank
        simp [runNameField, hblank, RecipeSerializer.validate_title,
          htitle, hany]
    rcases hfield with ⟨m, hm⟩
    rcases combineFields_error_of_title p.link
      (runNameField (RecipeSerializer.validate_title db u none) p.title)
      (RecipeSerializer.validate_time_minutes p.time_minutes)
      (RecipeSerializer.validate_price p.price)
      (mapMExcept (TagField.to_internal_value db u) p.tags)
      (mapMExcept (IngredientField.to_internal_value db u) p.ingredients)
      hm with ⟨errs, herrs, _⟩
    simp [recipeCreate, recipeRunValidation, herrs]

/-- Witness for C2 at concrete inputs. -/
theorem c2_witness :
    TagSerializer.validate_name sampleDB 1 (some ⟨1, 1, "Vegan"⟩)
      "Vegan" = .ok "Vegan" ∧
    TagSerializer.validate_name sampleDB 1 none "Vegan" =
      .error "There is already a tag with this name registered." ∧
    TagSerializer.validate_name sampleDB 1 none "Fruity" = .ok "Fruity" ∧
    (tagCreate sampleDB 1 "Vegan").1 = .s400 ∧
    IngredientSerializer.validate_name sampleDB 1 none "Salt" =
      .error "There is already a ingredient with this name registered." ∧
    RecipeSerializer.validate_title sampleDB 1 none "Pie" =
      .error "There is already a recipe with this title registered." ∧
    (recipeCreate sampleDB 1 ⟨"Pie", 1, 1, "", [], []⟩).1 = .s400 := by
  refine ⟨?_, ?_, ?_, ?_, ?_, ?_, ?_⟩
  · exact (c2_per_user_uniqueness sampleDB 1 "Vegan").1.1
      ⟨1, 1, "Vegan"⟩ rfl
  · exact ((c2_per_user_uniqueness sampleDB 1 "Vegan").1.2.1 none
      (by intro i h; cases h)).1 ⟨⟨1, 1, "Vegan"⟩, by decide, rfl, rfl⟩
  · exact ((c2_per_user_uniqueness sampleDB 1 "Fruity").1.2.1 none
      (by intro i h; cases h)).2 (by decide)
  · exact (c2_per_user_uniqueness sampleDB 1 "Vegan").1.2.2
      ⟨⟨1, 1, "Vegan"⟩, by decide, rfl, rfl⟩
  · exact ((c2_per_user_uniqueness sampleDB 1 "Salt").2.1.2.1 none
      (by intro i h; cases h)).1 ⟨⟨1, 1, "Salt"⟩, by decide, rfl, rfl⟩
  · exact ((c2_per_user_uniqueness sampleDB 1 "Pie").2.2.2.1 none
      (by intro i h; cases h)).1 ⟨⟨1, 1, "Pie", 10, 5, "", [1], [1]⟩,
        by decide, rfl, rfl⟩
  · exact (c2_per_user_uniqueness sampleDB 1 "Pie").2.2.2.2
      ⟨"Pie", 1, 1, "", [], []⟩ rfl
      ⟨⟨1, 1, "Pie", 10, 5, "", [1], [1]⟩, by decide, rfl, rfl⟩

/-- C10: the related-field type check accepts exactly ints and numeric
strings; any other value is rejected with the incorrect-type message,
independently of the store contents (no lookup happens); a numeric
string resolves to the same record as the corresponding int; a
well-typed value that fails only fails with the invalid-pk message
naming it; an ill-typed identifier in a recipe payload makes the
request answer 400. -/
theorem c10_pk_type_check (db db2 : DB) (u : Nat) (data : PyValue) :
    (data.pkTypeOk = true ↔
      (∃ n, data = .int n) ∨
      (∃ s, data = .str s ∧ pyIsNumeric s = true)) ∧
    (data.pkTypeOk = false →
      TagField.to_internal_value db u data =
        .error ("Incorrect type. Expected pk value, received "
          ++ data.typeName ++ ".") ∧
      IngredientField.to_internal_value db u data =
        .error ("Incorrect type. Expected pk value, received "
          ++ data.typeName ++ ".") ∧
      TagField.to_internal_value db u data =
        TagField.to_internal_value db2 u data ∧
      IngredientField.to_internal_value db u data =
        IngredientField.to_internal_value db2 u data) ∧
    (∀ m, data.pkTypeOk = true →
      TagField.to_internal_value db u data = .error m →
      m = "Invalid pk \"" ++ data.pkRepr
        ++ "\" - object does not exist.") ∧
    (∀ s t, pyIsNumeric s = true →
      (TagField.to_internal_value db u (.str s) = .ok t ↔
        TagField.to_internal_value db u
          (.int (charsToNat s.toList)) = .ok t)) ∧
    (∀ p : RecipePayload, ∀ pv ∈ p.tags, pv.pkTypeOk = false →
      (recipeCreate db u p).1 = .s400) ∧
    (∀ p : RecipePayload, ∀ pv ∈ p.ingredients, pv.pkTypeOk = false →
      (recipeCreate db u p).1 = .s400) := by
  refine ⟨?_, ?_, ?_, ?_, ?_, ?_⟩
  · cases data <;> simp [PyValue.pkTypeOk]
  · intro h
    refine ⟨?_, ?_, ?_, ?_⟩ <;>
      simp [TagField.to_internal_value, IngredientField.to_internal_value, h]
  · intro m hok herr
    rw [TagField.to_internal_value, hok] at herr
    simp only [Bool.not_true, Bool.false_eq_true, if_false] at herr
    cases hfind : db.tags.find?
        (fun t => (t.id : Int) == data.pk && t.user == u) with
    | some t => rw [hfind] at herr; cases herr
    | none =>
      rw [hfind] at herr
      exact ((Except.error.injEq _ _).mp herr).symm
  · intro s t hnum
    have hpk : (PyValue.str s).pk = (PyValue.int (charsToNat s.toList)).pk :=
      rfl
    constructor
    · intro h
      rw [TagField.to_internal_value] at h ⊢
      simp only [PyValue.pkTypeOk, hnum, Bool.not_true, Bool.false_eq_true,
        if_false] at h ⊢
      rw [← hpk]
      cases hfind : db.tags.find?
          (fun x => (x.id : Int) == (PyValue.str s).pk && x.user == u) with
      | some t2 => rw [hfind] at h; exact h
      | none => rw [hfind] at h; cases h
    · intro h
      rw [TagField.to_internal_value] at h ⊢
      simp only [PyValue.pkTypeOk, hnum, Bool.not_true, Bool.false_eq_true,
        if_false] at h ⊢
      rw [← hpk] at h
      cases hfind : db.tags.find?
          (fun x => (x.id : Int) == (PyValue.str s).pk && x.user == u) with
      | some t2 => rw [hfind] at h; exact h
      | none => rw [hfind] at h; cases h
  · intro p pv hpv htype
    have herr : TagField.to_internal_value db u pv =
        .error ("Incorrect type. Expected pk value, received "
          ++ pv.typeName ++ ".") := by
      simp [TagField.to_internal_value, htype]
    rcases mapMExcept_error_of_mem (TagField.to_internal_value db u)
      p.tags pv _ hpv herr with ⟨e, he, _⟩
    rcases combineFields_error_of_tags p.link
      (runNameField (RecipeSerializer.validate_title db u none) p.title)
      (RecipeSerializer.validate_time_minutes p.time_minutes)
      (RecipeSerializer.validate_price p.price)
      (mapMExcept (TagField.to_internal_value db u) p.tags)
      (mapMExcept (IngredientField.to_internal_value db u) p.ingredients)
      he with ⟨errs, herrs, _⟩
    simp [recipeCreate, recipeRunValidation, herrs]
  · intro p pv hpv htype
    have herr : IngredientField.to_internal_value db u pv =
        .error ("Incorrect type. Expected pk value, received "
          ++ pv.typeName ++ ".") := by
      simp [IngredientField.to_internal_value, htype]
    rcases mapMExcept_error_of_mem (IngredientField.to_internal_value db u)
      p.ingredients pv _ hpv herr with ⟨e, he, _⟩
    rcases combineFields_error_of_ingredients p.link
      (runNameField (RecipeSerializer.validate_title db u none) p.title)
      (RecipeSerializer.validate_time_minutes p.time_minutes)
      (RecipeSerializer.validate_price p.price)
      (mapMExcept (TagField.to_internal_value db u) p.tags)
      (mapMExcept (IngredientField.to_internal_value db u) p.ingredients)
      he with ⟨errs, herrs, _⟩
    simp [recipeCreate, recipeRunValidation, herrs]

/-- Witness for C10 at concrete inputs. -/
theorem c10_witness :
    TagField.to_internal_value sampleDB 1 (.float (5 / 2)) =
      .error ("Incorrect type. Expected pk value, received "
        ++ PyValue.typeName (.float (5 / 2)) ++ ".") ∧
    (PyValue.pylist [1, 2]).pkTypeOk = false ∧
    (PyValue.str "2x").pkTypeOk = false ∧
    (TagField.to_internal_value sampleDB 1 (.str "1") = .ok ⟨1, 1, "Vegan"⟩ ↔
      TagField.to_internal_value sampleDB 1
        (.int (charsToNat "1".toList)) = .ok ⟨1, 1, "Vegan"⟩) ∧
    (recipeCreate sampleDB 1
      ⟨"New", 1, 1, "", [.float (5 / 2)], []⟩).1 = .s400 := by
  have h := c10_pk_type_check sampleDB sampleDB 1 (.float (5 / 2))
  refine ⟨(h.2.1 (by decide)).1, by decide, by decide, ?_, ?_⟩
  · exact (c10_pk_type_check sampleDB sampleDB 1 (.str "1")).2.2.2.1
      "1" ⟨1, 1, "Vegan"⟩ (by decide)
  · exact h.2.2.2.2.1 ⟨"New", 1, 1, "", [.float (5 / 2)], []⟩
      (.float (5 / 2)) (by simp) (by decide)

/-- C4: a successful related-field conversion always yields an existing
record owned by the requesting user; when some supplied tag or
ingredient identifier fails to resolve, the create request answers 400
with the store unchanged, the update request leaves the store
unchanged (400 or 404), the validation error list contains the error
of a failing identifier of the payload, and for a well-typed failing
identifier that error names it. -/
theorem c4_relation_resolution (db : DB) (u : Nat) (p : RecipePayload)
    (pv : PyValue) (m : String)
    (h : (pv ∈ p.tags ∧ TagField.to_internal_value db u pv = .error m) ∨
      (pv ∈ p.ingredients ∧
        IngredientField.to_internal_value db u pv = .error m)) :
    recipeCreate db u p = (.s400, db) ∧
    (∀ id, (recipeUpdate db u id p).2 = db ∧
      ((recipeUpdate db u id p).1 = .s400 ∨
        (recipeUpdate db u id p).1 = .s404)) ∧
    (∀ inst : Option Recipe, ∃ errs,
      recipeRunValidation db u inst p = .error errs ∧
      ((∃ pv2 ∈ p.tags, ∃ m2,
          TagField.to_internal_value db u pv2 = .error m2 ∧ m2 ∈ errs) ∨
       (∃ pv2 ∈ p.ingredients, ∃ m2,
          IngredientField.to_internal_value db u pv2 = .error m2 ∧
            m2 ∈ errs))) ∧
    (∀ pv2 m2, pv2.pkTypeOk = true →
      TagField.to_internal_value db u pv2 = .error m2 →
      m2 = "Invalid pk \"" ++ pv2.pkRepr
        ++ "\" - object does not exist.") ∧
    (∀ pv2 t, TagField.to_internal_value db u pv2 = .ok t →
      t ∈ db.tags ∧ t.user = u) ∧
    (∀ pv2 i, IngredientField.to_internal_value db u pv2 = .ok i →
      i ∈ db.ingredients ∧ i.user = u) := by
  have hvalid : ∀ inst : Option Recipe, ∃ errs,
      recipeRunValidation db u inst p = .error errs ∧
      ((∃ pv2 ∈ p.tags, ∃ m2,
          TagField.to_internal_value db u pv2 = .error m2 ∧ m2 ∈ errs) ∨
       (∃ pv2 ∈ p.ingredients, ∃ m2,
          IngredientField.to_internal_value db u pv2 = .error m2 ∧
            m2 ∈ errs)) := by
    intro inst
    rcases h with ⟨hmem, herr⟩ | ⟨hmem, herr⟩
    · rcases mapMExcept_error_of_mem (TagField.to_internal_value db u)
        p.tags pv m hmem herr with ⟨e, he, pv2, hpv2, hfpv2⟩
      rcases combineFields_error_of_tags p.link
        (runNameField (RecipeSerializer.validate_title db u inst) p.title)
        (RecipeSerializer.validate_time_minutes p.time_minutes)
        (RecipeSerializer.validate_price p.price)
        (mapMExcept (TagField.to_internal_value db u) p.tags)
        (mapMExcept (IngredientField.to_internal_value db u) p.ingredients)
        he with ⟨errs, herrs, hmemerrs⟩
      exact ⟨errs, herrs, .inl ⟨pv2, hpv2, e, hfpv2, hmemerrs⟩⟩
    · rcases mapMExcept_error_of_mem
        (IngredientField.to_internal_value db u)
        p.ingredients pv m hmem herr with ⟨e, he, pv2, hpv2, hfpv2⟩
      rcases combineFields_error_of_ingredients p.link
        (runNameField (RecipeSerializer.validate_title db u inst) p.title)
        (RecipeSerializer.validate_time_minutes p.time_minutes)
        (RecipeSerializer.validate_price p.price)
        (mapMExcept (TagField.to_internal_value db u) p.tags)
        (mapMExcept (IngredientField.to_internal_value db u) p.ingredients)
        he with ⟨errs, herrs, hmemerrs⟩
      exact ⟨errs, herrs, .inr ⟨pv2, hpv2, e, hfpv2, hmemerrs⟩⟩
  refine ⟨?_, ?_, hvalid, ?_, ?_, ?_⟩
  · rcases hvalid none with ⟨errs, herrs, _⟩
    simp [recipeCreate, herrs]
  · intro id
    cases hfind : db.recipes.find? (fun r => r.user == u && r.id == id) with
    | none => simp [recipeUpdate, hfind]
    | some inst =>
      rcases hvalid (some inst) with ⟨errs, herrs, _⟩
      simp [recipeUpdate, hfind, herrs]
  · intro pv2 m2 hok herr
    rw [TagField.to_internal_value, hok] at herr
    simp only [Bool.not_true, Bool.false_eq_true, if_false] at herr
    cases hfind : db.tags.find?
        (fun t => (t.id : Int) == pv2.pk && t.user == u) with
    | some t => rw [hfind] at herr; cases herr
    | none =>
      rw [hfind] at herr
      exact ((Except.error.injEq _ _).mp herr).symm
  · intro pv2 t hok
    rw [TagField.to_internal_value] at hok
    by_cases htype : pv2.pkTypeOk = true
    · simp only [htype, Bool.not_true, Bool.false_eq_true, if_false] at hok
      cases hfind : db.tags.find?
          (fun x => (x.id : Int) == pv2.pk && x.user == u) with
      | none => rw [hfind] at hok; cases hok
      | some t2 =>
        rw [hfind] at hok
        have ht2 : t2 = t := by
          simpa using (Except.ok.injEq _ _).mp hok
        have hmem := List.mem_of_find?_eq_some hfind
        have hp := List.find?_some hfind
        simp at hp
        exact ⟨ht2 ▸ hmem, ht2 ▸ hp.2⟩
    · simp only [Bool.not_eq_true] at htype
      simp [htype] at hok
  · intro pv2 i hok
    rw [IngredientField.to_internal_value] at hok
    by_cases htype : pv2.pkTypeOk = true
    · simp only [htype, Bool.not_true, Bool.false_eq_true, if_false] at hok
      cases hfind : db.ingredients.find?
          (fun x => (x.id : Int) == pv2.pk && x.user == u) with
      | none => rw [hfind] at hok; cases hok
      | some i2 =>
        rw [hfind] at hok
        have hi2 : i2 = i := by
          simpa using (Except.ok.injEq _ _).mp hok
        have hmem := List.mem_of_find?_eq_some hfind
        have hp := List.find?_some hfind
        simp at hp
        exact ⟨hi2 ▸ hmem, hi2 ▸ hp.2⟩
    · simp only [Bool.not_eq_true] at htype
      simp [htype] at hok

/-- Witness for C4 at concrete inputs: tag id 99 does not exist, so the
create request with tags [1, 99] answers 400 without persisting. -/
theorem c4_witness :
    recipeCreate sampleDB 1 ⟨"New", 1, 1, "", [.int 1, .int 99], []⟩ =
      (.s400, sampleDB) ∧
    (recipeUpdate sampleDB 1 1
      ⟨"New", 1, 1, "", [.int 1, .int 99], []⟩).2 = sampleDB := by
  have h := c4_relation_resolution sampleDB 1
    ⟨"New", 1, 1, "", [.int 1, .int 99], []⟩ (.int 99)
    "Invalid pk \"99\" - object does not exist."
    (.inl ⟨by simp, by decide⟩)
  exact ⟨h.1, (h.2.1 1).1⟩

/-- C5: a record created by user A is invisible to a different user B:
it never appears in the list results of B, and retrieve, update and
destroy by B against its id answer 404 — the same response as for an
id that does not exist at all, and never 403. -/
theorem c5_cross_user_isolation (db : DB) (A B : Nat) (hAB : A ≠ B)
    (hwf : db.wf) :
    (∀ t ∈ db.tags, t.user = A →
      (∀ aO, t ∉ tagQueryset db B aO) ∧
      tagRetrieve db B t.id = .s404 ∧
      tagRetrieve db B t.id ≠ .s403 ∧
      (∀ nid, (∀ t2 ∈ db.tags, t2.id ≠ nid) →
        tagRetrieve db B t.id = tagRetrieve db B nid) ∧
      (∀ name, tagUpdate db B t.id name = (.s404, db)) ∧
      tagDestroy db B t.id = (.s404, db)) ∧
    (∀ i ∈ db.ingredients, i.user = A →
      (∀ aO, i ∉ ingredientQueryset db B aO) ∧
      ingredientRetrieve db B i.id = .s404 ∧
      ingredientRetrieve db B i.id ≠ .s403 ∧
      (∀ nid, (∀ i2 ∈ db.ingredients, i2.id ≠ nid) →
        ingredientRetrieve db B i.id = ingredientRetrieve db B nid) ∧
      (∀ name, ingredientUpdate db B i.id name = (.s404, db)) ∧
      ingredientDestroy db B i.id = (.s404, db)) ∧
    (∀ r ∈ db.recipes, r.user = A →
      (∀ tp ip, r ∉ recipeQueryset db B tp ip) ∧
      recipeRetrieve db B r.id = .s404 ∧
      recipeRetrieve db B r.id ≠ .s403 ∧
      (∀ nid, (∀ r2 ∈ db.recipes, r2.id ≠ nid) →
        recipeRetrieve db B r.id = recipeRetrieve db B nid) ∧
      (∀ p, recipeUpdate db B r.id p = (.s404, db)) ∧
      recipeDestroy db B r.id = (.s404, db)) := by
  refine ⟨?_, ?_, ?_⟩
  · intro t ht huser
    have hkey : ∀ t2 ∈ db.tags,
        ¬((t2.user == B && t2.id == t.id) = true) := by
      intro t2 ht2 hp
      simp at hp
      have := tag_eq_of_id_eq hwf.1 ht2 ht hp.2
      exact hAB (by rw [← huser, ← this, hp.1])
    have hany : db.tags.any (fun t2 => t2.user == B && t2.id == t.id)
        = false := by
      rw [Bool.eq_false_iff]
      intro hcontra
      rcases List.any_eq_true.mp hcontra with ⟨t2, ht2, hp⟩
      exact hkey t2 ht2 hp
    refine ⟨?_, ?_, ?_, ?_, ?_, ?_⟩
    · intro aO hmem
      cases aO with
      | false =>
        rcases mem_tagQueryset_false.mp hmem with ⟨_, hu⟩
        exact hAB (huser ▸ hu ▸ rfl)
      | true =>
        rcases mem_tagQueryset_true.mp hmem with ⟨_, hu, _⟩
        exact hAB (huser ▸ hu ▸ rfl)
    · simp [tagRetrieve, hany]
    · simp [tagRetrieve, hany]
    · intro nid hnone
      have hany2 : db.tags.any (fun t2 => t2.user == B && t2.id == nid)
          = false := by
        rw [Bool.eq_false_iff]
        intro hcontra
        rcases List.any_eq_true.mp hcontra with ⟨t2, ht2, hp⟩
        simp at hp
        exact hnone t2 ht2 hp.2
      simp [tagRetrieve, hany, hany2]
    · intro name
      have hfind : db.tags.find? (fun t2 => t2.user == B && t2.id == t.id)
          = none :=
        List.find?_eq_none.mpr hkey
      simp [tagUpdate, hfind]
    · simp [tagDestroy, hany]
  · intro i hi huser
    have hkey : ∀ i2 ∈ db.ingredients,
        ¬((i2.user == B && i2.id == i.id) = true) := by
      intro i2 hi2 hp
      simp at hp
      have := ingredient_eq_of_id_eq hwf.2.1 hi2 hi hp.2
      exact hAB (by rw [← huser, ← this, hp.1])
    have hany : db.ingredients.any
        (fun i2 => i2.user == B && i2.id == i.id) = false := by
      rw [Bool.eq_false_iff]
      intro hcontra
      rcases List.any_eq_true.mp hcontra with ⟨i2, hi2, hp⟩
      exact hkey i2 hi2 hp
    refine ⟨?_, ?_, ?_, ?_, ?_, ?_⟩
    · intro aO hmem
      cases aO with
      | false =>
        rcases mem_ingredientQueryset_false.mp hmem with ⟨_, hu⟩
        exact hAB (huser ▸ hu ▸ rfl)
      | true =>
        rcases mem_ingredientQueryset_true.mp hmem with ⟨_, hu, _⟩
        exact hAB (huser ▸ hu ▸ rfl)
    · simp [ingredientRetrieve, hany]
    · simp [ingredientRetrieve, hany]
    · intro nid hnone
      have hany2 : db.ingredients.any
          (fun i2 => i2.user == B && i2.id == nid) = false := by
        rw [Bool.eq_false_iff]
        intro hcontra
        rcases List.any_eq_true.mp hcontra with ⟨i2, hi2, hp⟩
        simp at hp
        exact hnone i2 hi2 hp.2
      simp [ingredientRetrieve, hany, hany2]
    · intro name
      have hfind : db.ingredients.find?
          (fun i2 => i2.user == B && i2.id == i.id) = none :=
        List.find?_eq_none.mpr hkey
      simp [ingredientUpdate, hfind]
    · simp [ingredientDestroy, hany]
  · intro r hr huser
    have hkey : ∀ r2 ∈ db.recipes,
        ¬((r2.user == B && r2.id == r.id) = true) := by
      intro r2 hr2 hp
      simp at hp
      have := recipe_eq_of_id_eq hwf.2.2 hr2 hr hp.2
      exact hAB (by rw [← huser, ← this, hp.1])
    have hany : db.recipes.any
        (fun r2 => r2.user == B && r2.id == r.id) = false := by
      rw [Bool.eq_false_iff]
      intro hcontra
      rcases List.any_eq_true.mp hcontra with ⟨r2, hr2, hp⟩
      exact hkey r2 hr2 hp
    refine ⟨?_, ?_, ?_, ?_, ?_, ?_⟩
    · intro tp ip hmem
      rcases mem_recipeQueryset_scope hmem with ⟨_, hu⟩
      exact hAB (huser ▸ hu ▸ rfl)
    · simp [recipeRetrieve, hany]
    · simp [recipeRetrieve, hany]
    · intro nid hnone
      have hany2 : db.recipes.any
          (fun r2 => r2.user == B && r2.id == nid) = false := by
        rw [Bool.eq_false_iff]
        intro hcontra
        rcases List.any_eq_true.mp hcontra with ⟨r2, hr2, hp⟩
        simp at hp
        exact hnone r2 hr2 hp.2
      simp [recipeRetrieve, hany, hany2]
    · intro p
      have hfind : db.recipes.find?
          (fun r2 => r2.user == B && r2.id == r.id) = none :=
        List.find?_eq_none.mpr hkey
      simp [recipeUpdate, hfind]
    · simp [recipeDestroy, hany]

/-- Witness for C5 at concrete inputs: user 1 accessing the tag,
ingredient and recipe of user 2 (and conversely) gets 404. -/
theorem c5_witness :
    tagRetrieve sampleDB 1 2 = .s404 ∧
    tagUpdate sampleDB 1 2 "Sweet" = (.s404, sampleDB) ∧
    tagDestroy sampleDB 1 2 = (.s404, sampleDB) ∧
    ingredientRetrieve sampleDB 1 2 = .s404 ∧
    recipeRetrieve sampleDB 2 1 = .s404 ∧
    (⟨2, 2, "Fruity"⟩ : Tag) ∉ tagQueryset sampleDB 1 false := by
  have h := c5_cross_user_isolation sampleDB 2 1 (by decide) (by decide)
  have ht := h.1 ⟨2, 2, "Fruity"⟩ (by simp [sampleDB]) rfl
  have hi := h.2.1 ⟨2, 2, "Pepper"⟩ (by simp [sampleDB]) rfl
  have hr := (c5_cross_user_isolation sampleDB 1 2 (by decide)
    (by decide)).2.2 ⟨1, 1, "Pie", 10, 5, "", [1], [1]⟩
    (by simp [sampleDB]) rfl
  exact ⟨ht.2.1, ht.2.2.2.2.1 "Sweet", ht.2.2.2.2.2, hi.2.1, hr.2.1,
    ht.1 false⟩

/-- C6: with the assigned-only filter, the tag and ingredient lists
contain exactly the records of the requesting user referenced by at
least one recipe, each at most once even when referenced by several
recipes. -/
theorem c6_assigned_only (db : DB) (u : Nat) (hwf : db.wf) :
    (∀ t : Tag, t ∈ tagQueryset db u true ↔
      t ∈ db.tags ∧ t.user = u ∧ ∃ r ∈ db.recipes, t.id ∈ r.tags) ∧
    (tagQueryset db u true).Nodup ∧
    (∀ i : Ingredient, i ∈ ingredientQueryset db u true ↔
      i ∈ db.ingredients ∧ i.user = u ∧
        ∃ r ∈ db.recipes, i.id ∈ r.ingredients) ∧
    (ingredientQueryset db u true).Nodup := by
  refine ⟨fun t => mem_tagQueryset_true, ?_, fun i =>
    mem_ingredientQueryset_true, ?_⟩
  · have hbase : db.tags.Nodup := List.Nodup.of_map _ hwf.1
    rw [tagQueryset]
    exact (List.perm_insertionSort tagNameDesc _).symm.nodup
      ((hbase.filter _).filter _)
  · have hbase : db.ingredients.Nodup := List.Nodup.of_map _ hwf.2.1
    rw [ingredientQueryset]
    exact (List.perm_insertionSort ingredientNameDesc _).symm.nodup
      ((hbase.filter _).filter _)

/-- Witness for C6 at concrete inputs: tag 1 of user 1 is referenced by
both recipes yet listed once; the unreferenced tag 3 is absent. -/
theorem c6_witness :
    ((⟨1, 1, "Vegan"⟩ : Tag) ∈ tagQueryset sampleDB 1 true) ∧
    (tagQueryset sampleDB 1 true).Nodup ∧
    ¬((⟨3, 1, "Dessert"⟩ : Tag) ∈ tagQueryset sampleDB 1 true) := by
  have h := c6_assigned_only sampleDB 1 (by decide)
  refine ⟨(h.1 ⟨1, 1, "Vegan"⟩).mpr ⟨by simp [sampleDB], rfl,
    ⟨1, 1, "Pie", 10, 5, "", [1], [1]⟩, by simp [sampleDB]⟩, h.2.1, ?_⟩
  intro hmem
  rcases (h.1 ⟨3, 1, "Dessert"⟩).mp hmem with ⟨_, _, r, hr, hid⟩
  simp [sampleDB] at hr
  rcases hr with h1 | h2
  · rw [h1] at hid; simp at hid
  · rw [h2] at hid; simp at hid

/-- C7: listing recipes with a comma-separated tags (or ingredients)
query parameter returns exactly the recipes of the requesting user
associated with at least one of the listed ids — an OR across the
ids — and no recipe lacking all of them. -/
theorem c7_or_filtering (db : DB) (u : Nat) :
    (∀ (r : Recipe) (qs : String),
      r ∈ recipeQueryset db u (some qs) none ↔
        r ∈ db.recipes ∧ r.user = u ∧
          ∃ i ∈ paramsToInts qs, i ∈ r.tags) ∧
    (∀ (r : Recipe) (qs : String),
      r ∈ recipeQueryset db u none (some qs) ↔
        r ∈ db.recipes ∧ r.user = u ∧
          ∃ i ∈ paramsToInts qs, i ∈ r.ingredients) :=
  ⟨fun _ _ => mem_recipeQueryset_tags,
   fun _ _ => mem_recipeQueryset_ingredients⟩

/-- Witness for C7 at concrete inputs: the query string parses and the
OR filter keeps exactly the matching recipes of the user. -/
theorem c7_witness :
    ((⟨1, 1, "Pie", 10, 5, "", [1], [1]⟩ : Recipe) ∈
      recipeQueryset sampleDB 1 (some "1,7") none) ∧
    ¬((⟨2, 1, "Stew", 5, 10, "", [1], [1]⟩ : Recipe) ∈
      recipeQueryset sampleDB 1 (some "7,9") none) := by
  have h := c7_or_filtering sampleDB 1
  constructor
  · exact (h.1 ⟨1, 1, "Pie", 10, 5, "", [1], [1]⟩ "1,7").mpr
      ⟨by simp [sampleDB], rfl, 1, by decide, by decide⟩
  · intro hmem
    rcases (h.1 ⟨2, 1, "Stew", 5, 10, "", [1], [1]⟩ "7,9").mp hmem
      with ⟨_, _, i, hqs, hi⟩
    have : i = 7 ∨ i = 9 := by
      have : paramsToInts "7,9" = [7, 9] := by decide
      rw [this] at hqs
      simpa using hqs
    rcases this with h7 | h9
    · rw [h7] at hi; simp at hi
    · rw [h9] at hi; simp at hi

/-- C8: every list endpoint returns only records owned by the
requesting user, the unfiltered tag and ingredient lists are exactly
the records of that user, and the tag and ingredient lists are ordered
by name descending. -/
theorem c8_scope_and_ordering (db : DB) (u : Nat) :
    (∀ aO, ∀ t ∈ tagQueryset db u aO, t.user = u) ∧
    (∀ aO, ∀ i ∈ ingredientQueryset db u aO, i.user = u) ∧
    (∀ tp ip, ∀ r ∈ recipeQueryset db u tp ip, r.user = u) ∧
    (∀ t : Tag, t ∈ tagQueryset db u false ↔
      t ∈ db.tags ∧ t.user = u) ∧
    (∀ i : Ingredient, i ∈ ingredientQueryset db u false ↔
      i ∈ db.ingredients ∧ i.user = u) ∧
    (∀ r : Recipe, r ∈ recipeQueryset db u none none ↔
      r ∈ db.recipes ∧ r.user = u) ∧
    (∀ aO, List.Sorted tagNameDesc (tagQueryset db u aO)) ∧
    (∀ aO, List.Sorted ingredientNameDesc (ingredientQueryset db u aO)) := by
  refine ⟨?_, ?_, ?_, fun t => mem_tagQueryset_false,
    fun i => mem_ingredientQueryset_false,
    fun r => mem_recipeQueryset_none, ?_, ?_⟩
  · intro aO t hmem
    cases aO with
    | false => exact (mem_tagQueryset_false.mp hmem).2
    | true => exact (mem_tagQueryset_true.mp hmem).2.1
  · intro aO i hmem
    cases aO with
    | false => exact (mem_ingredientQueryset_false.mp hmem).2
    | true => exact (mem_ingredientQueryset_true.mp hmem).2.1
  · intro tp ip r hmem
    exact (mem_recipeQueryset_scope hmem).2
  · intro aO
    rw [tagQueryset]
    exact List.sorted_insertionSort tagNameDesc _
  · intro aO
    rw [ingredientQueryset]
    exact List.sorted_insertionSort ingredientNameDesc _

/-- Witness for C8 at concrete inputs: the tag list of user 1 is
name-descending and contains only records of user 1. -/
theorem c8_witness :
    (⟨1, 1, "Vegan"⟩ : Tag).user = 1 ∧
    ((⟨1, 1, "Vegan"⟩ : Tag) ∈ tagQueryset sampleDB 1 false) ∧
    List.Sorted tagNameDesc (tagQueryset sampleDB 1 false) := by
  have h := c8_scope_and_ordering sampleDB 1
  have hmem : (⟨1, 1, "Vegan"⟩ : Tag) ∈ tagQueryset sampleDB 1 false :=
    (h.2.2.2.1 ⟨1, 1, "Vegan"⟩).mpr ⟨by simp [sampleDB], rfl⟩
  exact ⟨h.1 false ⟨1, 1, "Vegan"⟩ hmem, hmem, h.2.2.2.2.2.2.1 false⟩

/-- C9: a request carrying no authenticated user is answered 401 with
the store untouched, whatever the method, resource path and payload;
no validation, uniqueness or existence check influences the
response. -/
theorem c9_unauthenticated_401 (db : DB) (req : Req) :
    handle db none req = (.s401, db) :=
  rfl

end RecipeApi
